import Mathlib

/-!
Shallow embedding of `src/subst.rs` (pattern variables and substitutions of
an equality-saturation engine) and proofs about it.

Modelling conventions:
* Rust strings are `List Char` (the source only inspects ASCII bytes `?`, `#`,
  and decimal digits, for which bytes and chars coincide).
* `Symbol` (the external interning handle) is modelled by the interned text
  itself: handle equality is string equality and `as_str` is the identity,
  exactly the contract the interning table provides.
* `Id` (opaque eclass identifier, a `u32` newtype displayed in decimal) is
  modelled as `Nat`.
* `u32` parsing (`str::parse::<u32>` from the Rust core library) is modelled
  by `parseU32`: an optional single leading `+` sign, then one or more ASCII
  decimal digits, with failure on overflow past `2 ^ 32 - 1`.
* `panic!` in `Index for Subst` is modelled by `Except` with the panic
  message as the error value.
-/

set_option autoImplicit false

namespace EggSubst

/-- External interning handle, modelled by the interned text. -/
abbrev Symbol := List Char

/-- Opaque eclass identifier (`u32` newtype in the source). -/
abbrev Id := Nat

/-- `enum VarInner { Sym(Symbol), Num(u32) }` from the source. -/
inductive VarInner where
  | sym (s : Symbol)
  | num (n : Nat)
deriving DecidableEq

/-- `pub struct Var(VarInner)` from the source. -/
structure Var where
  inner : VarInner
deriving DecidableEq

/-- `Var::from_u32` from the source. -/
def Var.fromU32 (num : Nat) : Var := ⟨VarInner.num num⟩

/-- `Var::from_symbol` from the source. -/
def Var.fromSymbol (s : Symbol) : Var := ⟨VarInner.sym s⟩

/-- `Var::as_u32` from the source. -/
def Var.asU32 (v : Var) : Option Nat :=
  match v.inner with
  | VarInner.num num => some num
  | _ => none

/-- `enum VarParseError` from the source, each variant carrying the text. -/
inductive VarParseError where
  | missingQuestionMark (s : List Char)
  | badNumber (s : List Char)
deriving DecidableEq

/-- Decimal value of a digit string, accumulated left to right as Rust's
`from_str_radix` does. -/
def digitsVal (ds : List Char) : Nat :=
  ds.foldl (fun a c => a * 10 + (c.toNat - ('0').toNat)) 0

/-- Rust's `from_str_radix` for unsigned types strips one leading `+` sign
(`-` is only accepted for signed types). -/
def stripPlus (cs : List Char) : List Char :=
  match cs with
  | '+' :: rest => rest
  | _ => cs

/-- `str::parse::<u32>`: optional `+`, then one or more decimal digits whose
value fits in 32 bits; every failure (empty digits, non-digit, overflow) is
collapsed to `none`. -/
def parseU32 (cs : List Char) : Option Nat :=
  let ds := stripPlus cs
  if ds.isEmpty then none
  else if ds.all Char.isDigit then
    if digitsVal ds < 2 ^ 32 then some (digitsVal ds) else none
  else none

/-- `impl FromStr for Var`: ordered match on the leading bytes, as in the
source (`[b'?', b'#', ..]`, then `[b'?', ..] if s.len() > 1`, then the
catch-all). -/
def Var.fromStr (s : List Char) : Except VarParseError Var :=
  match s with
  | '?' :: '#' :: rest =>
    match parseU32 rest with
    | some num => Except.ok ⟨VarInner.num num⟩
    | none => Except.error (VarParseError.badNumber s)
  | '?' :: _ :: _ => Except.ok ⟨VarInner.sym s⟩
  | _ => Except.error (VarParseError.missingQuestionMark s)

/-- Fuelled decimal rendering; `natDec` supplies adequate fuel. Models the
standard library's decimal `Display` for unsigned integers. -/
def natDecAux : Nat → Nat → List Char
  | 0, _ => []
  | fuel + 1, n =>
    if n < 10 then [Nat.digitChar n]
    else natDecAux fuel (n / 10) ++ [Nat.digitChar (n % 10)]

/-- Decimal rendering of a natural number, no leading zeros. -/
def natDec (n : Nat) : List Char := natDecAux (n + 1) n

/-- `impl Display for Var`: a symbol variant prints its interned text, a
numeric variant prints `?#` followed by the decimal value. -/
def varDisplay (v : Var) : List Char :=
  match v.inner with
  | VarInner.sym sym => sym
  | VarInner.num num => '?' :: '#' :: natDec num

example : Var.fromStr ("?a".data) = Except.ok (Var.fromSymbol ("?a".data)) := rfl
example : Var.fromStr ("?#10".data) = Except.ok (Var.fromU32 10) := rfl
example : Var.fromStr ("?#0010".data) = Except.ok (Var.fromU32 10) := rfl
example : Var.fromStr ("?#+1".data) = Except.ok (Var.fromU32 1) := rfl
example : Var.fromStr ("?#".data) = Except.error (VarParseError.badNumber ("?#".data)) := rfl
example : Var.fromStr ("?#foo".data) = Except.error (VarParseError.badNumber ("?#foo".data)) := rfl
example : Var.fromStr ("?".data) = Except.error (VarParseError.missingQuestionMark ("?".data)) := rfl
example : Var.fromStr ("a?".data) = Except.error (VarParseError.missingQuestionMark ("a?".data)) := rfl
example : varDisplay (Var.fromU32 12) = "?#12".data := by decide
example : natDec 100 = "100".data := by decide

/-- `pub struct Subst { vec: SmallVec<[(Var, Id); 3]> }` from the source; the
small-size inline storage is a performance detail, the sequence is the state. -/
structure Subst where
  vec : List (Var × Id)
deriving DecidableEq

/-- `Subst::with_capacity`: an empty substitution, the capacity being only a
preallocation hint with no semantic effect. -/
def Subst.withCapacity (capacity : Nat) : Subst :=
  let _ := capacity
  ⟨[]⟩

/-- The list-level body of `Subst::insert`: scan for the key; on a hit replace
the bound value in place and return the old one, otherwise push at the end. -/
def insertList : List (Var × Id) → Var → Id → Option Id × List (Var × Id)
  | [], v, id => (none, [(v, id)])
  | (v', id') :: rest, v, id =>
    if v' = v then (some id', (v', id) :: rest)
    else
      let r := insertList rest v id
      (r.1, (v', id') :: r.2)

/-- `Subst::insert` from the source. -/
def Subst.insert (s : Subst) (var : Var) (id : Id) : Option Id × Subst :=
  ((insertList s.vec var id).1, ⟨(insertList s.vec var id).2⟩)

/-- The list-level body of `Subst::get`: first pair whose key matches. -/
def getList : List (Var × Id) → Var → Option Id
  | [], _ => none
  | (v', id') :: rest, v => if v' = v then some id' else getList rest v

/-- `Subst::get` from the source (`find_map` over the pair sequence). -/
def Subst.get (s : Subst) (var : Var) : Option Id :=
  getList s.vec var

/-- `Subst::len` from the source. -/
def Subst.len (s : Subst) : Nat := s.vec.length

/-- `Subst::is_empty` from the source. -/
def Subst.isEmptyS (s : Subst) : Bool := s.vec.isEmpty

/-- `Subst::iter` from the source: the pairs in insertion order. -/
def Subst.iter (s : Subst) : List (Var × Id) := s.vec

/-- `impl Debug for Subst`: brace-delimited, comma-space-separated
`var: id` entries in iteration order with no trailing separator. -/
def substDebug (s : Subst) : List Char :=
  '\x7b' :: List.intercalate (", ".data)
    (s.vec.map (fun p => varDisplay p.1 ++ ": ".data ++ natDec p.2)) ++ ['\x7d']

/-- The message of the `panic!` in `impl Index<Var> for Subst`:
`Var '{}={}' not found in {:?}` with the variable displayed twice and the
substitution debug-rendered. -/
def panicMessage (var : Var) (s : Subst) : List Char :=
  "Var \x27".data ++ varDisplay var ++ "=".data ++ varDisplay var ++
    "\x27 not found in ".data ++ substDebug s

/-- `impl Index<Var> for Subst`: the bound id, or a panic (modelled as
`Except.error` carrying the panic message) when the variable is unbound. -/
def Subst.index (s : Subst) (var : Var) : Except (List Char) Id :=
  match s.get var with
  | some id => Except.ok id
  | none => Except.error (panicMessage var s)

/-- The list-level body of `FromIterator<(Var, Id)> for Subst`: itertools'
`unique_by` on the key, keeping a first-occurrence pair and recording its key
as seen. -/
def uniqueBy : List (Var × Id) → List Var → List (Var × Id)
  | [], _ => []
  | p :: rest, seen =>
    if p.1 ∈ seen then uniqueBy rest seen
    else p :: uniqueBy rest (p.1 :: seen)

/-- `impl FromIterator<(Var, Id)> for Subst` from the source. -/
def Subst.fromPairs (l : List (Var × Id)) : Subst := ⟨uniqueBy l []⟩

/-- Modelled from the spec: build-from-pairs "keeping only the first
occurrence of each distinct Var and discarding later duplicates, while
preserving the relative order of first occurrences" — the classic
keep-first-occurrence function, to be compared with `Subst.fromPairs`. -/
def keepFirstSpec : List (Var × Id) → List (Var × Id)
  | [] => []
  | p :: rest => p :: keepFirstSpec (rest.filter (fun q => decide (q.1 ≠ p.1)))
termination_by l => l.length
decreasing_by
  simp only [List.length_cons]
  exact Nat.lt_succ_of_le (List.length_filter_le _ _)

example :
    Subst.fromPairs [(Var.fromU32 1, 10), (Var.fromU32 2, 20), (Var.fromU32 1, 30)]
      = ⟨[(Var.fromU32 1, 10), (Var.fromU32 2, 20)]⟩ := by decide
example : substDebug ⟨[(Var.fromU32 1, 5)]⟩ = "\x7b?#1: 5\x7d".data := by decide
example :
    panicMessage (Var.fromU32 2) ⟨[(Var.fromU32 1, 5)]⟩
      = "Var \x27?#2=?#2\x27 not found in \x7b?#1: 5\x7d".data := by decide

/-! ### Helper lemmas about the parser -/

theorem fromStr_q_hash (rest : List Char) :
    Var.fromStr ('?' :: '#' :: rest) =
      match parseU32 rest with
      | some num => Except.ok ⟨VarInner.num num⟩
      | none => Except.error (VarParseError.badNumber ('?' :: '#' :: rest)) := rfl

theorem fromStr_sym_arm (c : Char) (rest : List Char) (h : ¬ c = '#') :
    Var.fromStr ('?' :: c :: rest) = Except.ok ⟨VarInner.sym ('?' :: c :: rest)⟩ := by
  rw [Var.fromStr.eq_def]
  split
  · rename_i heq; injection heq with h1 h2; injection h2 with h3 _; exact absurd h3 h
  · rfl
  · rename_i hne; exact (hne c rest rfl).elim

theorem fromStr_not_q (c : Char) (rest : List Char) (h : ¬ c = '?') :
    Var.fromStr (c :: rest) =
      Except.error (VarParseError.missingQuestionMark (c :: rest)) := by
  rw [Var.fromStr.eq_def]
  split
  · rename_i heq; injection heq with h1 _; exact absurd h1 h
  · rename_i heq; injection heq with h1 _; exact absurd h1 h
  · rfl

theorem stripPlus_of_digit (c : Char) (cs : List Char) (h : c.isDigit = true) :
    stripPlus (c :: cs) = c :: cs := by
  have hc : ¬ c = '+' := by
    intro hh
    subst hh
    exact absurd h (by decide)
  rw [stripPlus.eq_def]
  split
  · rename_i heq; injection heq with h1 _; exact absurd h1 hc
  · rfl

theorem parseU32_digits (ds : List Char) (h1 : ds ≠ []) (h2 : ds.all Char.isDigit = true)
    (h3 : digitsVal ds < 2 ^ 32) : parseU32 ds = some (digitsVal ds) := by
  cases ds with
  | nil => exact absurd rfl h1
  | cons c cs =>
    have hc : c.isDigit = true := by
      rw [List.all_cons, Bool.and_eq_true] at h2
      exact h2.1
    rw [show (2 : Nat) ^ 32 = 4294967296 by norm_num] at h3
    unfold parseU32
    rw [stripPlus_of_digit c cs hc]
    simp [h2, h3]

theorem parseU32_eq_none (cs : List Char)
    (h : stripPlus cs = [] ∨ (stripPlus cs).all Char.isDigit = false ∨
      2 ^ 32 ≤ digitsVal (stripPlus cs)) :
    parseU32 cs = none := by
  rcases h with h | h | h
  · simp [parseU32, h]
  · by_cases he : (stripPlus cs).isEmpty <;> simp [parseU32, he, h]
  · rw [show (2 : Nat) ^ 32 = 4294967296 by norm_num] at h
    by_cases he : (stripPlus cs).isEmpty
    · simp [parseU32, he]
    · have hlt : ¬ digitsVal (stripPlus cs) < 4294967296 := Nat.not_lt.mpr h
      by_cases ha : (stripPlus cs).all Char.isDigit <;> simp [parseU32, he, ha, hlt]

/-! ### Helper lemmas about decimal rendering -/

theorem natDecAux_irrel (f1 : Nat) : ∀ (f2 n : Nat), n < f1 → n < f2 →
    natDecAux f1 n = natDecAux f2 n := by
  induction f1 with
  | zero => intro f2 n h1 _; exact absurd h1 (Nat.not_lt_zero n)
  | succ f1 ih =>
    intro f2 n h1 h2
    cases f2 with
    | zero => exact absurd h2 (Nat.not_lt_zero n)
    | succ f2 =>
      rw [natDecAux, natDecAux]
      by_cases hn : n < 10
      · simp [hn]
      · have hdiv : n / 10 < n := Nat.div_lt_self (by omega) (by omega)
        simp only [hn, if_false]
        rw [ih f2 (n / 10) (by omega) (by omega)]

theorem natDec_unfold (n : Nat) :
    natDec n = if n < 10 then [Nat.digitChar n]
      else natDec (n / 10) ++ [Nat.digitChar (n % 10)] := by
  unfold natDec
  rw [natDecAux]
  by_cases hn : n < 10
  · simp [hn]
  · have hdiv : n / 10 < n := Nat.div_lt_self (by omega) (by omega)
    simp only [hn, if_false]
    rw [natDecAux_irrel n (n / 10 + 1) (n / 10) (by omega) (by omega)]

theorem digitChar_toNat (n : Nat) (h : n < 10) : (Nat.digitChar n).toNat = n + 48 := by
  interval_cases n <;> decide

theorem digitChar_isDigit (n : Nat) (h : n < 10) : (Nat.digitChar n).isDigit = true := by
  interval_cases n <;> decide

theorem digitsVal_append_singleton (ds : List Char) (c : Char) :
    digitsVal (ds ++ [c]) = digitsVal ds * 10 + (c.toNat - ('0').toNat) := by
  simp [digitsVal, List.foldl_append]

theorem digitsVal_natDec (n : Nat) : digitsVal (natDec n) = n := by
  induction n using Nat.strong_induction_on with
  | _ n ih =>
    have h0 : ('0').toNat = 48 := rfl
    rw [natDec_unfold]
    by_cases hn : n < 10
    · simp only [hn, if_true]
      show digitsVal [Nat.digitChar n] = n
      simp [digitsVal, digitChar_toNat n hn, h0]
    · have hdiv : n / 10 < n := Nat.div_lt_self (by omega) (by omega)
      simp only [hn, if_false]
      rw [digitsVal_append_singleton, ih (n / 10) hdiv,
        digitChar_toNat (n % 10) (Nat.mod_lt n (by omega)), h0]
      omega

theorem natDec_all_digits (n : Nat) : (natDec n).all Char.isDigit = true := by
  induction n using Nat.strong_induction_on with
  | _ n ih =>
    rw [natDec_unfold]
    by_cases hn : n < 10
    · simp [hn, digitChar_isDigit n hn]
    · have hdiv : n / 10 < n := Nat.div_lt_self (by omega) (by omega)
      simp [hn, List.all_append, ih (n / 10) hdiv,
        digitChar_isDigit (n % 10) (Nat.mod_lt n (by omega))]

theorem natDec_ne_nil (n : Nat) : natDec n ≠ [] := by
  rw [natDec_unfold]
  by_cases hn : n < 10 <;> simp [hn]

theorem natDec_head_ne_zero (n : Nat) (h : n ≠ 0) : (natDec n).headI ≠ '0' := by
  induction n using Nat.strong_induction_on with
  | _ n ih =>
    rw [natDec_unfold]
    by_cases hn : n < 10
    · simp only [hn, if_true]
      show Nat.digitChar n ≠ '0'
      intro hc
      interval_cases n
      · exact h rfl
      all_goals exact absurd hc (by decide)
    · have hdiv : n / 10 < n := Nat.div_lt_self (by omega) (by omega)
      have hne : natDec (n / 10) ≠ [] := natDec_ne_nil (n / 10)
      simp only [hn, if_false]
      cases hcs : natDec (n / 10) with
      | nil => exact absurd hcs hne
      | cons d ds =>
        have := ih (n / 10) hdiv (by omega)
        rw [hcs] at this
        simpa using this

/-! ### Helper lemmas about the substitution -/

theorem getList_none_iff (l : List (Var × Id)) (v : Var) :
    getList l v = none ↔ v ∉ l.map Prod.fst := by
  induction l with
  | nil => simp [getList]
  | cons p rest ih =>
    obtain ⟨v', id'⟩ := p
    by_cases hv : v' = v
    · subst hv
      simp [getList]
    · simp [getList, hv, ih, Ne.symm hv]

theorem insertList_not_mem (l : List (Var × Id)) (v : Var) (id : Id)
    (h : getList l v = none) : insertList l v id = (none, l ++ [(v, id)]) := by
  induction l with
  | nil => rfl
  | cons p rest ih =>
    obtain ⟨v', id'⟩ := p
    rw [getList] at h
    by_cases hv : v' = v
    · rw [if_pos hv] at h
      cases h
    · rw [if_neg hv] at h
      simp [insertList, hv, ih h]

theorem getList_append_self (l : List (Var × Id)) (v : Var) (id : Id)
    (h : getList l v = none) : getList (l ++ [(v, id)]) v = some id := by
  induction l with
  | nil => simp [getList]
  | cons p rest ih =>
    obtain ⟨v', id'⟩ := p
    rw [getList] at h
    by_cases hv : v' = v
    · rw [if_pos hv] at h
      cases h
    · rw [if_neg hv] at h
      simp [getList, hv, ih h]

theorem insertList_mem (l : List (Var × Id)) (v : Var) (id old : Id)
    (h : getList l v = some old) :
    (insertList l v id).1 = some old ∧
    (insertList l v id).2.map Prod.fst = l.map Prod.fst ∧
    (insertList l v id).2.length = l.length ∧
    getList (insertList l v id).2 v = some id := by
  induction l with
  | nil => simp [getList] at h
  | cons p rest ih =>
    obtain ⟨v', id'⟩ := p
    by_cases hv : v' = v
    · rw [getList, if_pos hv] at h
      injection h with h
      refine ⟨?_, ?_, ?_, ?_⟩
      · simp [insertList, hv, h]
      · simp [insertList, hv]
      · simp [insertList, hv]
      · simp [insertList, getList, hv]
    · rw [getList, if_neg hv] at h
      obtain ⟨ih1, ih2, ih3, ih4⟩ := ih h
      refine ⟨?_, ?_, ?_, ?_⟩
      · simp [insertList, hv, ih1]
      · simp [insertList, hv, ih2]
      · simp [insertList, hv, ih3]
      · simp [insertList, getList, hv, ih4]

theorem uniqueBy_nodup_aux (l : List (Var × Id)) : ∀ (seen : List Var),
    ((uniqueBy l seen).map Prod.fst).Nodup ∧
    ∀ v ∈ (uniqueBy l seen).map Prod.fst, v ∉ seen := by
  induction l with
  | nil => intro seen; simp [uniqueBy]
  | cons p rest ih =>
    intro seen
    by_cases hp : p.1 ∈ seen
    · rw [uniqueBy, if_pos hp]
      exact ih seen
    · rw [uniqueBy, if_neg hp]
      obtain ⟨ihn, ihs⟩ := ih (p.1 :: seen)
      constructor
      · rw [List.map_cons, List.nodup_cons]
        refine ⟨fun hmem => ?_, ihn⟩
        exact (ihs p.1 hmem) (List.mem_cons_self p.1 seen)
      · intro v hv
        rw [List.map_cons, List.mem_cons] at hv
        rcases hv with hv | hv
        · rw [hv]; exact hp
        · intro hseen
          exact (ihs v hv) (List.mem_cons_of_mem _ hseen)

theorem filter_ne_filter_not_mem (rest : List (Var × Id)) (w : Var) (seen : List Var) :
    (rest.filter (fun q => decide (q.1 ∉ seen))).filter (fun q => decide (q.1 ≠ w))
      = rest.filter (fun q => decide (q.1 ∉ w :: seen)) := by
  rw [List.filter_filter]
  apply List.filter_congr
  intro a _
  by_cases h1 : a.1 = w <;> by_cases h2 : a.1 ∈ seen <;> simp [h1, h2]

theorem uniqueBy_eq_keepFirst_aux (l : List (Var × Id)) : ∀ (seen : List Var),
    uniqueBy l seen = keepFirstSpec (l.filter (fun q => decide (q.1 ∉ seen))) := by
  induction l with
  | nil => intro seen; simp [uniqueBy, keepFirstSpec]
  | cons p rest ih =>
    intro seen
    by_cases hp : p.1 ∈ seen
    · rw [uniqueBy, if_pos hp]
      have hfil : (p :: rest).filter (fun q => decide (q.1 ∉ seen))
          = rest.filter (fun q => decide (q.1 ∉ seen)) := by
        simp [List.filter_cons, hp]
      rw [hfil]
      exact ih seen
    · rw [uniqueBy, if_neg hp]
      have hfil : (p :: rest).filter (fun q => decide (q.1 ∉ seen))
          = p :: rest.filter (fun q => decide (q.1 ∉ seen)) := by
        simp [List.filter_cons, hp]
      rw [hfil]
      simp only [keepFirstSpec]
      rw [filter_ne_filter_not_mem, ih (p.1 :: seen)]

theorem uniqueBy_eq_keepFirst (l : List (Var × Id)) : uniqueBy l [] = keepFirstSpec l := by
  rw [uniqueBy_eq_keepFirst_aux l []]
  congr 1
  simp

/-! ### The claims -/

/-- C1: for every text `?#` followed by one or more decimal digits whose value
fits in an unsigned 32-bit integer, parsing succeeds with the numeric variant
holding that decimal value; a leading zero is insignificant (prepending `'0'`
leaves the parse result unchanged, so `?#0010` and `?#10` parse equal); the
numeric variant displays as `?#` followed by the canonical decimal rendering
of the value: all digits, evaluating back to the value, with no leading zero
(its head digit is nonzero unless the value is `0`). -/
theorem claim_C1 (ds : List Char) (h1 : ds ≠ []) (h2 : ds.all Char.isDigit = true)
    (h3 : digitsVal ds < 2 ^ 32) :
    Var.fromStr ('?' :: '#' :: ds) = Except.ok (Var.fromU32 (digitsVal ds)) ∧
    Var.fromStr ('?' :: '#' :: '0' :: ds) = Var.fromStr ('?' :: '#' :: ds) ∧
    varDisplay (Var.fromU32 (digitsVal ds)) = '?' :: '#' :: natDec (digitsVal ds) ∧
    digitsVal (natDec (digitsVal ds)) = digitsVal ds ∧
    (natDec (digitsVal ds)).all Char.isDigit = true ∧
    (digitsVal ds = 0 ∨ (natDec (digitsVal ds)).headI ≠ '0') := by
  have hp : parseU32 ds = some (digitsVal ds) := parseU32_digits ds h1 h2 h3
  have hz : digitsVal ('0' :: ds) = digitsVal ds := rfl
  have hall : ('0' :: ds).all Char.isDigit = true := by
    rw [List.all_cons, h2]
    rfl
  have hp0 : parseU32 ('0' :: ds) = some (digitsVal ds) := by
    rw [parseU32_digits ('0' :: ds) (List.cons_ne_nil '0' ds) hall (by rw [hz]; exact h3), hz]
  refine ⟨?_, ?_, rfl, digitsVal_natDec (digitsVal ds), natDec_all_digits (digitsVal ds), ?_⟩
  · rw [fromStr_q_hash, hp]
    rfl
  · rw [fromStr_q_hash ds, fromStr_q_hash ('0' :: ds), hp, hp0]
  · by_cases h0 : digitsVal ds = 0
    · exact Or.inl h0
    · exact Or.inr (natDec_head_ne_zero (digitsVal ds) h0)

/-- C1 witness: the theorem applied to the digit run `010` (so that the
leading-zero conjunct relates `?#0010` and `?#010`). -/
theorem claim_C1_witness :
    Var.fromStr ('?' :: '#' :: ("010".data)) = Except.ok (Var.fromU32 (digitsVal ("010".data))) ∧
    Var.fromStr ('?' :: '#' :: '0' :: ("010".data)) = Var.fromStr ('?' :: '#' :: ("010".data)) ∧
    varDisplay (Var.fromU32 (digitsVal ("010".data)))
      = '?' :: '#' :: natDec (digitsVal ("010".data)) ∧
    digitsVal (natDec (digitsVal ("010".data))) = digitsVal ("010".data) ∧
    (natDec (digitsVal ("010".data))).all Char.isDigit = true ∧
    (digitsVal ("010".data) = 0 ∨ (natDec (digitsVal ("010".data))).headI ≠ '0') :=
  claim_C1 ("010".data) (by decide) (by decide) (by decide)

/-- C2 counterexample: the remainder `+1` after `?#` contains the non-digit
character `+`, yet the parse succeeds with the numeric variant `1` instead of
failing with `BadNumber`, because Rust's `u32` parsing accepts one optional
leading `+` sign. -/
theorem claim_C2_counterexample :
    Var.fromStr ("?#+1".data) = Except.ok (Var.fromU32 1) := rfl

/-- C2 (amended): for every text beginning with `?#` whose remainder, after
stripping one optional leading `+` sign, is empty, contains a non-digit
character, or has a value that overflows an unsigned 32-bit integer, the
parse fails with `BadNumber` carrying the original text; in particular `?#`
and `?#foo` fail with `BadNumber`. -/
theorem claim_C2 (rest : List Char)
    (h : stripPlus rest = [] ∨ (stripPlus rest).all Char.isDigit = false ∨
      2 ^ 32 ≤ digitsVal (stripPlus rest)) :
    Var.fromStr ('?' :: '#' :: rest) =
      Except.error (VarParseError.badNumber ('?' :: '#' :: rest)) := by
  rw [fromStr_q_hash, parseU32_eq_none rest h]

/-- C2 witness: the amended theorem applied to `?#` (empty digit run) and to
`?#foo` (non-digit remainder). -/
theorem claim_C2_witness :
    Var.fromStr ('?' :: '#' :: ([] : List Char)) =
      Except.error (VarParseError.badNumber ('?' :: '#' :: ([] : List Char))) ∧
    Var.fromStr ('?' :: '#' :: ("foo".data)) =
      Except.error (VarParseError.badNumber ('?' :: '#' :: ("foo".data))) :=
  ⟨claim_C2 [] (Or.inl rfl), claim_C2 ("foo".data) (Or.inr (Or.inl (by decide)))⟩

/-- C3: inserting an unbound variable appends the pair at the end, returns
`none`, grows `len` by exactly one, and makes `get` return the new id;
inserting an already-bound variable returns the previously bound id, replaces
the value in place leaving the key sequence (iteration order of variables)
unchanged, leaves `len` unchanged, and makes `get` return the new id. -/
theorem claim_C3 (s : Subst) (v : Var) (id1 id2 : Id) :
    (s.get v = none →
      (s.insert v id1).1 = none ∧
      ((s.insert v id1).2).vec = s.vec ++ [(v, id1)] ∧
      ((s.insert v id1).2).len = s.len + 1 ∧
      ((s.insert v id1).2).get v = some id1) ∧
    (∀ old, s.get v = some old →
      (s.insert v id2).1 = some old ∧
      ((s.insert v id2).2).vec.map Prod.fst = s.vec.map Prod.fst ∧
      ((s.insert v id2).2).len = s.len ∧
      ((s.insert v id2).2).get v = some id2) := by
  constructor
  · intro h
    have h1 := insertList_not_mem s.vec v id1 h
    refine ⟨?_, ?_, ?_, ?_⟩
    · show (insertList s.vec v id1).1 = none
      rw [h1]
    · show (insertList s.vec v id1).2 = s.vec ++ [(v, id1)]
      rw [h1]
    · show (insertList s.vec v id1).2.length = s.vec.length + 1
      rw [h1]
      simp
    · show getList (insertList s.vec v id1).2 v = some id1
      rw [h1]
      exact getList_append_self s.vec v id1 h
  · intro old h
    obtain ⟨ha, hb, hc, hd⟩ := insertList_mem s.vec v id2 old h
    exact ⟨ha, hb, hc, hd⟩

/-- C3 witness: on `{?#1 ↦ 5}`, inserting the unbound `?#2` returns `none`,
and re-inserting the bound `?#1` with `9` returns `some 5` and rebinds it. -/
theorem claim_C3_witness :
    ((Subst.mk [(Var.fromU32 1, 5)]).insert (Var.fromU32 2) 7).1 = none ∧
    ((Subst.mk [(Var.fromU32 1, 5)]).insert (Var.fromU32 1) 9).1 = some 5 ∧
    (((Subst.mk [(Var.fromU32 1, 5)]).insert (Var.fromU32 1) 9).2).get (Var.fromU32 1)
      = some 9 :=
  ⟨((claim_C3 ⟨[(Var.fromU32 1, 5)]⟩ (Var.fromU32 2) 7 9).1 (by decide)).1,
   ((claim_C3 ⟨[(Var.fromU32 1, 5)]⟩ (Var.fromU32 1) 7 9).2 5 (by decide)).1,
   ((claim_C3 ⟨[(Var.fromU32 1, 5)]⟩ (Var.fromU32 1) 7 9).2 5 (by decide)).2.2.2⟩

/-- C4: building a `Subst` from a pair sequence agrees with the
keep-first-occurrence function (first occurrence of each distinct variable
kept in relative order, later duplicates discarded); in particular
`[(v1,a),(v2,b),(v1,c)]` with `v1 ≠ v2` yields exactly the two bindings
`v1 ↦ a` and `v2 ↦ b`, iterating in order `[v1, v2]`. -/
theorem claim_C4 :
    (∀ l : List (Var × Id), Subst.fromPairs l = ⟨keepFirstSpec l⟩) ∧
    (∀ (v1 v2 : Var) (a b c : Id), v1 ≠ v2 →
      Subst.fromPairs [(v1, a), (v2, b), (v1, c)] = ⟨[(v1, a), (v2, b)]⟩ ∧
      (Subst.fromPairs [(v1, a), (v2, b), (v1, c)]).get v1 = some a ∧
      (Subst.fromPairs [(v1, a), (v2, b), (v1, c)]).get v2 = some b ∧
      (Subst.fromPairs [(v1, a), (v2, b), (v1, c)]).len = 2) := by
  have hmain : ∀ l : List (Var × Id), Subst.fromPairs l = ⟨keepFirstSpec l⟩ := by
    intro l
    show (⟨uniqueBy l []⟩ : Subst) = ⟨keepFirstSpec l⟩
    rw [uniqueBy_eq_keepFirst]
  refine ⟨hmain, ?_⟩
  intro v1 v2 a b c h
  have h' : ¬ v2 = v1 := fun hh => h hh.symm
  have hvec : Subst.fromPairs [(v1, a), (v2, b), (v1, c)] = ⟨[(v1, a), (v2, b)]⟩ := by
    show (⟨uniqueBy [(v1, a), (v2, b), (v1, c)] []⟩ : Subst) = ⟨[(v1, a), (v2, b)]⟩
    simp [uniqueBy, h']
  refine ⟨hvec, ?_, ?_, ?_⟩
  · rw [hvec]
    show getList [(v1, a), (v2, b)] v1 = some a
    simp [getList]
  · rw [hvec]
    show getList [(v1, a), (v2, b)] v2 = some b
    simp [getList, h]
  · rw [hvec]
    rfl

/-- C4 witness: the duplicate-key part of the theorem applied to `v1 = ?#1`, `v2 = ?#2`. -/
theorem claim_C4_witness :
    Subst.fromPairs [(Var.fromU32 1, 10), (Var.fromU32 2, 20), (Var.fromU32 1, 30)]
      = ⟨[(Var.fromU32 1, 10), (Var.fromU32 2, 20)]⟩ ∧
    (Subst.fromPairs [(Var.fromU32 1, 10), (Var.fromU32 2, 20), (Var.fromU32 1, 30)]).get
      (Var.fromU32 1) = some 10 ∧
    (Subst.fromPairs [(Var.fromU32 1, 10), (Var.fromU32 2, 20), (Var.fromU32 1, 30)]).get
      (Var.fromU32 2) = some 20 ∧
    (Subst.fromPairs [(Var.fromU32 1, 10), (Var.fromU32 2, 20), (Var.fromU32 1, 30)]).len
      = 2 :=
  claim_C4.2 (Var.fromU32 1) (Var.fromU32 2) 10 20 30 (by decide)

/-- C5: every string starting with `?` of length greater than one that does
not enter the numeric `?#` case (its second character is not `#`) parses to
the symbol variant interning the entire text, and the display of that variant
reproduces the text exactly. -/
theorem claim_C5 (c : Char) (rest : List Char) (h : ¬ c = '#') :
    Var.fromStr ('?' :: c :: rest) = Except.ok (Var.fromSymbol ('?' :: c :: rest)) ∧
    varDisplay (Var.fromSymbol ('?' :: c :: rest)) = '?' :: c :: rest :=
  ⟨fromStr_sym_arm c rest h, rfl⟩

/-- C5 witness: the theorem applied to `?a`. -/
theorem claim_C5_witness :
    Var.fromStr ('?' :: 'a' :: []) = Except.ok (Var.fromSymbol ('?' :: 'a' :: [])) ∧
    varDisplay (Var.fromSymbol ('?' :: 'a' :: [])) = '?' :: 'a' :: [] :=
  claim_C5 'a' [] (by decide)

/-- C6: every string that is empty, is the bare single character `?`, or does
not begin with `?`, fails to parse with `MissingQuestionMark` carrying the
original text. -/
theorem claim_C6 (s : List Char)
    (h : s = [] ∨ s = ['?'] ∨ ∃ c rest, s = c :: rest ∧ ¬ c = '?') :
    Var.fromStr s = Except.error (VarParseError.missingQuestionMark s) := by
  rcases h with h | h | ⟨c, rest, rfl, hc⟩
  · subst h
    rfl
  · subst h
    rfl
  · exact fromStr_not_q c rest hc

/-- C6 witness: the theorem applied to `a`, `a?` and `?`. -/
theorem claim_C6_witness :
    Var.fromStr ("a".data) = Except.error (VarParseError.missingQuestionMark ("a".data)) ∧
    Var.fromStr ("a?".data) = Except.error (VarParseError.missingQuestionMark ("a?".data)) ∧
    Var.fromStr ("?".data) = Except.error (VarParseError.missingQuestionMark ("?".data)) :=
  ⟨claim_C6 ("a".data) (Or.inr (Or.inr ⟨'a', [], rfl, by decide⟩)),
   claim_C6 ("a?".data) (Or.inr (Or.inr ⟨'a', ['?'], rfl, by decide⟩)),
   claim_C6 ("?".data) (Or.inr (Or.inl rfl))⟩

/-- C7: `get` returns the bound id for a bound variable (and indexed access
then returns the same id); on an unbound variable indexed access raises the
unrecoverable fault (modelled as the `Except.error` branch) whose diagnostic
message contains the display of the missing variable and the debug rendering
of the whole substitution. -/
theorem claim_C7 (s : Subst) (v : Var) :
    (∀ id, s.get v = some id → s.index v = Except.ok id) ∧
    (s.get v = none →
      s.index v = Except.error (panicMessage v s) ∧
      (∃ l r, panicMessage v s = l ++ varDisplay v ++ r) ∧
      (∃ l r, panicMessage v s = l ++ substDebug s ++ r)) := by
  constructor
  · intro id h
    unfold Subst.index
    rw [h]
  · intro h
    refine ⟨?_, ?_, ?_⟩
    · unfold Subst.index
      rw [h]
    · refine ⟨"Var \x27".data,
        "=".data ++ varDisplay v ++ "\x27 not found in ".data ++ substDebug s, ?_⟩
      simp [panicMessage, List.append_assoc]
    · refine ⟨"Var \x27".data ++ varDisplay v ++ "=".data ++ varDisplay v ++
        "\x27 not found in ".data, [], ?_⟩
      simp [panicMessage, List.append_assoc]

/-- C7 witness: on `{?#1 ↦ 5}`, indexed access at the bound `?#1` returns
`5` and at the unbound `?#2` produces the panic message. -/
theorem claim_C7_witness :
    (Subst.mk [(Var.fromU32 1, 5)]).index (Var.fromU32 1) = Except.ok 5 ∧
    (Subst.mk [(Var.fromU32 1, 5)]).index (Var.fromU32 2)
      = Except.error (panicMessage (Var.fromU32 2) ⟨[(Var.fromU32 1, 5)]⟩) :=
  ⟨(claim_C7 ⟨[(Var.fromU32 1, 5)]⟩ (Var.fromU32 1)).1 5 (by decide),
   ((claim_C7 ⟨[(Var.fromU32 1, 5)]⟩ (Var.fromU32 2)).2 (by decide)).1⟩

/-- C8: a numeric variable is never equal to a symbol variable (their
structural equality test always answers `false`), even when their display
forms coincide as for `from_u32 12` and the symbol interning `?#12`; and
equality is structural on the payload within each variant. -/
theorem claim_C8 :
    (∀ (n : Nat) (s : Symbol), decide (Var.fromU32 n = Var.fromSymbol s) = false) ∧
    varDisplay (Var.fromU32 12) = varDisplay (Var.fromSymbol ("?#12".data)) ∧
    decide (Var.fromU32 12 = Var.fromSymbol ("?#12".data)) = false ∧
    (∀ n m : Nat, (Var.fromU32 n = Var.fromU32 m) ↔ n = m) ∧
    (∀ s t : Symbol, (Var.fromSymbol s = Var.fromSymbol t) ↔ s = t) := by
  refine ⟨?_, by decide, by decide, ?_, ?_⟩
  · intro n s
    simp [Var.fromU32, Var.fromSymbol]
  · intro n m
    simp [Var.fromU32]
  · intro s t
    simp [Var.fromSymbol]

/-- C9: every substitution reachable through the public constructors and
operations has pairwise-distinct variable keys: `with_capacity` starts with
no keys, `insert` preserves distinctness, and build-from-pairs always
produces distinct keys. -/
theorem claim_C9 :
    (∀ capacity : Nat, ((Subst.withCapacity capacity).vec.map Prod.fst).Nodup) ∧
    (∀ (s : Subst) (v : Var) (id : Id), (s.vec.map Prod.fst).Nodup →
      (((s.insert v id).2).vec.map Prod.fst).Nodup) ∧
    (∀ l : List (Var × Id), ((Subst.fromPairs l).vec.map Prod.fst).Nodup) := by
  refine ⟨fun _ => List.nodup_nil, ?_, fun l => (uniqueBy_nodup_aux l []).1⟩
  intro s v id h
  show ((insertList s.vec v id).2.map Prod.fst).Nodup
  cases hg : s.get v with
  | none =>
    have hv : v ∉ s.vec.map Prod.fst := (getList_none_iff s.vec v).mp hg
    rw [insertList_not_mem s.vec v id hg]
    simp only [List.map_append, List.map_cons, List.map_nil]
    apply List.Nodup.append h (List.nodup_singleton v)
    rw [List.disjoint_singleton]
    exact hv
  | some old =>
    obtain ⟨_, hkeys, _, _⟩ := insertList_mem s.vec v id old hg
    rw [hkeys]
    exact h

/-- C9 witness: the insert-preservation part applied to `{?#1 ↦ 5}` and the
fresh key `?#2`. -/
theorem claim_C9_witness :
    ((((Subst.mk [(Var.fromU32 1, 5)]).insert (Var.fromU32 2) 7).2).vec.map Prod.fst).Nodup :=
  claim_C9.2.1 ⟨[(Var.fromU32 1, 5)]⟩ (Var.fromU32 2) 7 (by decide)

/-- C10: substitution equality is order-sensitive: inserting the same two
bindings in the two different orders yields sequences that are permutations
of each other (the same set of bindings) and agree on every lookup of the two
variables, yet the two substitutions compare as unequal. -/
theorem claim_C10 :
    List.Perm
      ((((Subst.withCapacity 0).insert (Var.fromU32 1) 10).2.insert (Var.fromU32 2) 20).2).vec
      ((((Subst.withCapacity 0).insert (Var.fromU32 2) 20).2.insert (Var.fromU32 1) 10).2).vec ∧
    ((((Subst.withCapacity 0).insert (Var.fromU32 1) 10).2.insert (Var.fromU32 2) 20).2).get
        (Var.fromU32 1)
      = ((((Subst.withCapacity 0).insert (Var.fromU32 2) 20).2.insert (Var.fromU32 1) 10).2).get
        (Var.fromU32 1) ∧
    ((((Subst.withCapacity 0).insert (Var.fromU32 1) 10).2.insert (Var.fromU32 2) 20).2).get
        (Var.fromU32 2)
      = ((((Subst.withCapacity 0).insert (Var.fromU32 2) 20).2.insert (Var.fromU32 1) 10).2).get
        (Var.fromU32 2) ∧
    decide ((((Subst.withCapacity 0).insert (Var.fromU32 1) 10).2.insert (Var.fromU32 2) 20).2
      = (((Subst.withCapacity 0).insert (Var.fromU32 2) 20).2.insert (Var.fromU32 1) 10).2)
      = false := by
  refine ⟨?_, by decide, by decide, by decide⟩
  decide

end EggSubst
